import Mathlib

/-
Verification of the qbit-manage desktop sidecar supervisor
(src/desktop/tauri/src-tauri/src/main.rs) via a shallow embedding.

The embedding translates the Rust supervisor into executable Lean
definitions.  OS interaction (environment variables, the filesystem,
process liveness queries, HTTP responses) is modelled by explicit
oracle parameters; real-time sleeps and signals are recorded as
actions in an effect trace; loops driven by wall-clock time are
discretised so that one iteration advances the clock by the loop's
sleep interval, and are written with an explicit fuel argument large
enough that the fuel never runs out before the loop's own guard stops
it (structural recursion keeps every definition kernel-executable).

String helpers model the Rust `str` operations (`trim`,
`trim_start_matches`, `strip_prefix`, `parse::<u16>`) as structural
functions over the character list of a Lean `String`.
-/

namespace QbitManage

/-- Environment-variable oracle: `std::env::var`, `none` meaning unset. -/
abbrev Env := String → Option String

/-- Model of Rust `str::trim`: drop whitespace from both ends. -/
def strTrim (s : String) : String :=
  ⟨((s.data.dropWhile Char.isWhitespace).reverse.dropWhile Char.isWhitespace).reverse⟩

/-- Model of Rust `str::trim_start_matches (c)`: drop every leading `c`. -/
def strDropLeading (c : Char) (s : String) : String :=
  ⟨s.data.dropWhile (fun a => a == c)⟩

/-- Empty-string test on the character list. -/
def strIsEmpty (s : String) : Bool :=
  s.data.isEmpty

/-- Helper for `chop`: remove a leading character sequence if it matches. -/
def chopChars : List Char → List Char → Option (List Char)
  | [], s => some s
  | _ :: _, [] => none
  | p :: ps, c :: cs => if p == c then chopChars ps cs else none

/-- Model of Rust `str::strip_prefix (p)` : `some` of the remainder when `s`
begins with `p`, otherwise `none`. -/
def chop (p s : String) : Option String :=
  (chopChars p.data s.data).map (fun l => ⟨l⟩)

/-- Digit accumulator for `parseU16`. -/
def parseDigitsAux : List Char → Nat → Option Nat
  | [], acc => some acc
  | c :: cs, acc => if c.isDigit then parseDigitsAux cs (acc * 10 + (c.toNat - 48)) else none

/-- Model of Rust `str::parse::<u16>`: an optional `+` sign, then one or
more decimal digits, value below 2^16. -/
def parseU16 (s : String) : Option Nat :=
  let t : List Char := match s.data with
    | '+' :: rest => rest
    | l => l
  match t with
  | [] => none
  | _ =>
    match parseDigitsAux t 0 with
    | some n => if n < 65536 then some n else none
    | none => none

/-- Constant `DEFAULT_PORT` from main.rs. -/
def DEFAULT_PORT : Nat := 8080

/-- Constant `SERVER_READY_TIMEOUT_SECS` from main.rs. -/
def SERVER_READY_TIMEOUT_SECS : Nat := 20

/-- Constant `SERVER_RESTART_TIMEOUT_SECS` from main.rs. -/
def SERVER_RESTART_TIMEOUT_SECS : Nat := 15

/-- Constant `PROCESS_WAIT_TIMEOUT_MS` from main.rs. -/
def PROCESS_WAIT_TIMEOUT_MS : Nat := 200

/-- Constant `GRACEFUL_SHUTDOWN_WAIT_MS` from main.rs. -/
def GRACEFUL_SHUTDOWN_WAIT_MS : Nat := 50

/-- Constant `POLL_INTERVAL_MS` from main.rs. -/
def POLL_INTERVAL_MS : Nat := 10

/-- Constant `HTTP_POLL_INTERVAL_MS` from main.rs. -/
def HTTP_POLL_INTERVAL_MS : Nat := 250

/-- The command-line scanning loop of `parse_port_from_args` (main.rs
lines 241-258): walk the arguments one by one; on `--port`/`-p` followed
by a value that parses as `u16` return it, on `--port=<u16>` return the
embedded value; otherwise keep scanning (an unparsable value does not
abort the scan). -/
def parse_port_args_scan : List String → Option Nat
  | [] => none
  | arg :: rest =>
    if arg = "--port" ∨ arg = "-p" then
      match rest with
      | v :: _ =>
        match parseU16 v with
        | some p => some p
        | none => parse_port_args_scan rest
      | [] => parse_port_args_scan rest
    else
      match chop "--port=" arg with
      | some r =>
        match parseU16 r with
        | some p => some p
        | none => parse_port_args_scan rest
      | none => parse_port_args_scan rest

/-- `parse_port_from_args` (main.rs lines 241-267): the CLI scan, then the
`QBT_PORT` environment variable (trimmed), then `DEFAULT_PORT`. -/
def parse_port_from_args (env : Env) (args : List String) : Nat :=
  match parse_port_args_scan args with
  | some p => p
  | none =>
    match env "QBT_PORT" with
    | some val =>
      match parseU16 (strTrim val) with
      | some p => p
      | none => DEFAULT_PORT
    | none => DEFAULT_PORT

/-- The command-line scanning loop of `parse_base_url_from_args` (main.rs
lines 269-294).  The outer `some` means "the scan decided the result"; it
carries `some base` for a non-empty trimmed/slash-stripped value and
`none` for an explicitly empty one (which the Rust code returns
immediately, skipping the environment fallback). -/
def parse_base_url_args_scan : List String → Option (Option String)
  | [] => none
  | arg :: rest =>
    if arg = "--base-url" ∨ arg = "--base_url" ∨ arg = "-b" then
      match rest with
      | v :: _ =>
        let s := strDropLeading '/' (strTrim v)
        some (if strIsEmpty s then none else some s)
      | [] => parse_base_url_args_scan rest
    else
      match chop "--base-url=" arg with
      | some r =>
        let s := strDropLeading '/' (strTrim r)
        some (if strIsEmpty s then none else some s)
      | none =>
        match chop "--base_url=" arg with
        | some r =>
          let s := strDropLeading '/' (strTrim r)
          some (if strIsEmpty s then none else some s)
        | none => parse_base_url_args_scan rest

/-- `parse_base_url_from_args` (main.rs lines 269-303): the CLI scan, and
only when it decided nothing, the `QBT_BASE_URL` environment variable
(trimmed, leading slashes stripped, empty meaning no base path). -/
def parse_base_url_from_args (env : Env) (args : List String) : Option String :=
  match parse_base_url_args_scan args with
  | some r => r
  | none =>
    match env "QBT_BASE_URL" with
    | some val =>
      let s := strDropLeading '/' (strTrim val)
      if strIsEmpty s then none else some s
    | none => none

/-- The command-line scanning loop of `parse_host_from_args` (main.rs
lines 305-324): `--host`/`-H` followed by a non-empty trimmed value, or
`--host=<value>`; an empty value keeps the scan going. -/
def parse_host_args_scan : List String → Option String
  | [] => none
  | arg :: rest =>
    if arg = "--host" ∨ arg = "-H" then
      match rest with
      | v :: _ =>
        let s := strTrim v
        if strIsEmpty s then parse_host_args_scan rest else some s
      | [] => parse_host_args_scan rest
    else
      match chop "--host=" arg with
      | some r =>
        let s := strTrim r
        if strIsEmpty s then parse_host_args_scan rest else some s
      | none => parse_host_args_scan rest

/-- `parse_host_from_args` (main.rs lines 305-334): the CLI scan, then the
`QBT_HOST` environment variable (trimmed, non-empty), then `127.0.0.1`. -/
def parse_host_from_args (env : Env) (args : List String) : String :=
  match parse_host_args_scan args with
  | some h => h
  | none =>
    match env "QBT_HOST" with
    | some val =>
      let s := strTrim val
      if strIsEmpty s then "127.0.0.1" else s
    | none => "127.0.0.1"

/-- `build_server_url_effective` (main.rs lines 336-343). -/
def build_server_url_effective (env : Env) (args : List String) : String :=
  let host := parse_host_from_args env args
  let port := parse_port_from_args env args
  match parse_base_url_from_args env args with
  | some b => "http://" ++ host ++ ":" ++ toString port ++ "/" ++ b
  | none => "http://" ++ host ++ ":" ++ toString port

/-- An environment with every variable unset. -/
def emptyEnv : Env := fun _ => none

/-- Filesystem paths, as lists of components; joining a file name appends
one component (Rust `Path::join`, no normalisation of `..`). -/
abbrev FsPath := List String

/-- The compile-time platform selector (`cfg!(target_os = ...)`). -/
inductive Platform
  | windows
  | macos
  | linux
deriving DecidableEq

/-- `get_binary_names` (main.rs lines 361-372). -/
def get_binary_names : Platform → List String
  | .windows => ["qbit-manage.exe", "qbit-manage-windows-amd64.exe"]
  | _ => ["qbit-manage", "qbit-manage-linux-amd64", "qbit-manage-macos-x86_64", "qbit-manage-macos-arm64"]

/-- `get_fallback_binary_name` (main.rs lines 51-53). -/
def get_fallback_binary_name : Platform → String
  | .windows => "qbit-manage.exe"
  | _ => "qbit-manage"

/-- Oracles for binary resolution: the environment, a filesystem
existence test, the optional Tauri resource directory, and the optional
path of the running executable. -/
structure FsEnv where
  env : Env
  fileExists : FsPath → Bool
  resource_dir : Option FsPath
  current_exe : Option FsPath

/-- Rust `Path::parent`: drop the last component; `none` for the empty path. -/
def path_parent : FsPath → Option FsPath
  | [] => none
  | xs => some xs.dropLast

/-- Inner loop of `find_binary_in_paths` (main.rs lines 374-384): try each
candidate name inside one directory. -/
def find_binary_in_names (ex : FsPath → Bool) (path : FsPath) : List String → Option FsPath
  | [] => none
  | n :: ns =>
    if ex (path ++ [n]) then some (path ++ [n]) else find_binary_in_names ex path ns

/-- `find_binary_in_paths` (main.rs lines 374-384): first existing
`path.join(name)` over paths (outer) and names (inner). -/
def find_binary_in_paths (ex : FsPath → Bool) : List FsPath → List String → Option FsPath
  | [], _ => none
  | p :: ps, names =>
    match find_binary_in_names ex p names with
    | some c => some c
    | none => find_binary_in_paths ex ps names

/-- The search-path list built inside `resolve_server_binary` (main.rs
lines 395-410): resource dir's `bin`, resource dir, executable's
directory, that directory's parent. -/
def search_paths (fs : FsEnv) : List FsPath :=
  (match fs.resource_dir with
   | some rd => [rd ++ ["bin"], rd]
   | none => []) ++
  (match fs.current_exe with
   | some exe =>
     match path_parent exe with
     | some d => [d, d ++ [".."]]
     | none => []
   | none => [])

/-- `resolve_server_binary` (main.rs lines 386-413): the `QBM_SERVER_PATH`
override if it exists on disk, otherwise search the candidate names over
the search paths. -/
def resolve_server_binary (fs : FsEnv) (plat : Platform) : Option FsPath :=
  match fs.env "QBM_SERVER_PATH" with
  | some p =>
    if fs.fileExists [p] then some [p]
    else find_binary_in_paths fs.fileExists (search_paths fs) (get_binary_names plat)
  | none => find_binary_in_paths fs.fileExists (search_paths fs) (get_binary_names plat)

/-- The ordered candidate list that the spec describes for the resolver:
the environment override first, then every candidate binary name under
each search path in order.  Used to state that resolution returns the
first existing candidate. -/
def resolve_candidates (fs : FsEnv) (plat : Platform) : List FsPath :=
  (match fs.env "QBM_SERVER_PATH" with
   | some p => [[p]]
   | none => []) ++
  (search_paths fs).flatMap (fun d => (get_binary_names plat).map (fun n => d ++ [n]))

/-- The path actually handed to `Command::new` by `start_server` (main.rs
lines 582-585): the resolved binary, or the bare fallback name. -/
def chosen_spawn_path (fs : FsEnv) (plat : Platform) : FsPath :=
  (resolve_server_binary fs plat).getD [get_fallback_binary_name plat]

/-- An `FsEnv` with nothing set and no file present. -/
def fsEmpty : FsEnv :=
  { env := emptyEnv, fileExists := fun _ => false, resource_dir := none, current_exe := none }

/-- Result of `Child::try_wait`: `exited` for `Ok(Some(_))`, `running` for
`Ok(None)`, `checkErr` for `Err(_)`. -/
inductive Liveness
  | exited
  | running
  | checkErr
deriving DecidableEq

/-- The stored child process (`ServerProcess` in main.rs); its Windows
job handle is irrelevant to the Unix claims and is not modelled. -/
structure ServerProcess where
  pid : Nat
deriving DecidableEq

/-- Observable effects of the supervisor, recorded as a trace. -/
inductive Action
  | resolveBinary
  | spawnAttempt (path : FsPath)
  | sigterm (pid : Nat)
  | sleepMs (ms : Nat)
  | kill (pid : Nat)
  | waitReap (pid : Nat)
  | pollLiveness (pid : Nat) (polls : Nat)
  | redirect (url : String)
deriving DecidableEq

/-- `status()` as the spec describes it: whether the shared state holds a
record. -/
inductive ServerStatus
  | absent
  | running
deriving DecidableEq

/-- Lazy status query over the shared state slot. -/
def server_status : Option ServerProcess → ServerStatus
  | none => .absent
  | some _ => .running

/-- OS oracles for `start_server`: the liveness answer `try_wait` gives
for a stored record, and the outcome of `Command::spawn` for a given
binary path. -/
structure SpawnEnv where
  tryWait : ServerProcess → Liveness
  spawn : FsPath → Except String ServerProcess

/-- The resolve-and-spawn tail of `start_server` (main.rs lines 582-700),
entered with the state slot already cleared: resolve the binary (falling
back to the bare name), attempt the spawn, and on success store the new
record; on failure the `?` operator propagates the OS error with the
slot left at `none`. -/
def spawn_server_process (fs : FsEnv) (plat : Platform) (o : SpawnEnv) :
    Option ServerProcess × Except String Unit × List Action :=
  let path := chosen_spawn_path fs plat
  match o.spawn path with
  | .ok child => (some child, .ok (), [.resolveBinary, .spawnAttempt path])
  | .error e => (none, .error e, [.resolveBinary, .spawnAttempt path])

/-- `start_server` (main.rs lines 561-701) as a transition on the shared
state slot, returning the new slot, the call's result, and the effect
trace.  With a stored record whose `try_wait` reports `Ok(None)` the
call returns immediately; a record seen as exited (or erroring the
check) is discarded before the spawn path runs. -/
def start_server (fs : FsEnv) (plat : Platform) (o : SpawnEnv) (st : Option ServerProcess) :
    Option ServerProcess × Except String Unit × List Action :=
  match st with
  | some sp =>
    match o.tryWait sp with
    | .running => (some sp, .ok (), [])
    | _ => spawn_server_process fs plat o
  | none => spawn_server_process fs plat o

/-- OS oracles for `stop_server` on Unix: the `try_wait` answer after the
graceful-shutdown sleep, and the `try_wait` answers seen by the polling
loop of `wait_for_process_exit`. -/
structure StopEnv where
  afterGrace : Liveness
  poll : Nat → Liveness

/-- The loop body of `wait_for_process_exit` (main.rs lines 227-239),
discretised: the k-th iteration runs while `k * POLL_INTERVAL_MS` is
below the timeout (each earlier iteration slept `POLL_INTERVAL_MS`);
a poll seeing `Ok(Some(_))` or `Err(_)` breaks out.  Returns the number
of `try_wait` polls performed.  The fuel argument only makes the
recursion structural; it never runs out before the guard stops the
loop when it starts at `timeoutMs + 1`. -/
def wait_for_process_exit_aux (w : Nat → Liveness) (timeoutMs : Nat) : Nat → Nat → Nat
  | 0, k => k
  | fuel + 1, k =>
    if k * POLL_INTERVAL_MS < timeoutMs then
      match w k with
      | .running => wait_for_process_exit_aux w timeoutMs fuel (k + 1)
      | _ => k + 1
    else k

/-- `wait_for_process_exit` (main.rs lines 227-239), as the number of
liveness polls its bounded loop performs. -/
def wait_for_process_exit (w : Nat → Liveness) (timeoutMs : Nat) : Nat :=
  wait_for_process_exit_aux w timeoutMs (timeoutMs + 1) 0

/-- `stop_server` (main.rs lines 415-456), Unix path, as a transition on
the shared state slot plus an effect trace: take the record (leaving
`none`); if none was stored do nothing; otherwise send SIGTERM, sleep
the graceful window, force-kill unless `try_wait` confirmed the exit,
run the bounded `wait_for_process_exit` poll loop, and finish with the
unconditional `kill` and blocking `wait`. -/
def stop_server (o : StopEnv) (st : Option ServerProcess) : Option ServerProcess × List Action :=
  match st with
  | none => (none, [])
  | some sp =>
    let pid := sp.pid
    let gracefulKill : List Action :=
      match o.afterGrace with
      | .exited => []
      | _ => [.kill pid]
    let polls := wait_for_process_exit o.poll PROCESS_WAIT_TIMEOUT_MS
    (none,
      [.sigterm pid, .sleepMs GRACEFUL_SHUTDOWN_WAIT_MS]
        ++ gracefulKill
        ++ [.pollLiveness pid polls, .kill pid, .waitReap pid])

/-- The polling loop of `wait_until_ready` (main.rs lines 513-522),
discretised: the k-th GET happens while `k * HTTP_POLL_INTERVAL_MS` is
below the timeout (each earlier iteration slept the HTTP poll
interval).  `resp k` is the k-th GET's outcome: `none` for a network
error (swallowed), `some s` for a response with status `s`; the loop
returns `true` at the first status below 500.  The fuel argument only
makes the recursion structural; starting it at `timeoutMs + 1` it never
runs out before the guard stops the loop. -/
def ready_poll_aux (resp : Nat → Option Nat) (timeoutMs : Nat) : Nat → Nat → Bool
  | 0, _ => false
  | fuel + 1, k =>
    if k * HTTP_POLL_INTERVAL_MS < timeoutMs then
      match resp k with
      | some s => if s < 500 then true else ready_poll_aux resp timeoutMs fuel (k + 1)
      | none => ready_poll_aux resp timeoutMs fuel (k + 1)
    else false

/-- `wait_until_ready` (main.rs lines 505-523): `false` outright when the
HTTP client cannot be built, otherwise the polling loop from attempt 0. -/
def wait_until_ready (clientOk : Bool) (resp : Nat → Option Nat) (timeoutMs : Nat) : Bool :=
  if clientOk then ready_poll_aux resp timeoutMs (timeoutMs + 1) 0 else false

/-- Oracles for the readiness prober: whether the reqwest client builds,
and the outcome of each successive GET. -/
structure ReadyEnv where
  clientOk : Bool
  resp : Nat → Option Nat

/-- The readiness-wait-then-redirect tail shared by the restart arm and
the autostart task (main.rs lines 763-768): only a successful start is
followed by the readiness wait, and only a ready answer by the UI
redirect to the effective server URL. -/
def ready_redirect_actions (env : Env) (ro : ReadyEnv) (args : List String)
    (timeoutMs : Nat) (res : Except String Unit) : List Action :=
  match res with
  | .ok _ =>
    if wait_until_ready ro.clientOk ro.resp timeoutMs then
      [.redirect (build_server_url_effective env args)]
    else []
  | .error _ => []

/-- The `"restart"` tray-menu arm (main.rs lines 752-771) as a transition
on the shared state slot: `stop_server`, then the fixed
`PROCESS_WAIT_TIMEOUT_MS` cleanup delay, then `start_server`, then the
readiness wait and redirect with the 15-second restart timeout. -/
def restart_server (fs : FsEnv) (plat : Platform) (so : SpawnEnv) (te : StopEnv)
    (ro : ReadyEnv) (args : List String) (st : Option ServerProcess) :
    Option ServerProcess × List Action :=
  let stopped := stop_server te st
  let started := start_server fs plat so stopped.1
  (started.1,
    stopped.2 ++ [.sleepMs PROCESS_WAIT_TIMEOUT_MS] ++ started.2.2
      ++ ready_redirect_actions fs.env ro args (SERVER_RESTART_TIMEOUT_SECS * 1000) started.2.1)

/-- Modelled from the spec: restart() is stop() followed by a short fixed
delay (to let the OS release the port and handles) and then start(),
followed by the readiness wait and the UI redirect.  Stated from the
spec's words for the refinement comparison with `restart_server`. -/
def restart_spec (fs : FsEnv) (plat : Platform) (so : SpawnEnv) (te : StopEnv)
    (ro : ReadyEnv) (args : List String) (st : Option ServerProcess) :
    Option ServerProcess × List Action :=
  let afterStop := stop_server te st
  let delayTrace : List Action := [.sleepMs PROCESS_WAIT_TIMEOUT_MS]
  let afterStart := start_server fs plat so afterStop.1
  let tail := ready_redirect_actions fs.env ro args (SERVER_RESTART_TIMEOUT_SECS * 1000) afterStart.2.1
  (afterStart.1, afterStop.2 ++ delayTrace ++ afterStart.2.2 ++ tail)

end QbitManage

namespace QbitManage

/-- C8: with host 127.0.0.1, port 8080 and base path given as `app`,
`/app` or `//app`, the effective URL is exactly
`http://127.0.0.1:8080/app` — one slash between authority and base
path — and without a base path it is exactly `http://127.0.0.1:8080`;
the same holds when host and port come from the defaults. -/
theorem url_slash_joining :
    build_server_url_effective emptyEnv
        ["--host", "127.0.0.1", "--port", "8080", "--base-url", "app"] = "http://127.0.0.1:8080/app"
    ∧ build_server_url_effective emptyEnv
        ["--host", "127.0.0.1", "--port", "8080", "--base-url", "/app"] = "http://127.0.0.1:8080/app"
    ∧ build_server_url_effective emptyEnv
        ["--host", "127.0.0.1", "--port", "8080", "--base-url", "//app"] = "http://127.0.0.1:8080/app"
    ∧ build_server_url_effective emptyEnv
        ["--host", "127.0.0.1", "--port", "8080"] = "http://127.0.0.1:8080"
    ∧ build_server_url_effective emptyEnv ["--base-url", "/app"] = "http://127.0.0.1:8080/app"
    ∧ build_server_url_effective emptyEnv [] = "http://127.0.0.1:8080" := by
  refine ⟨?_, ?_, ?_, ?_, ?_, ?_⟩ <;> decide

end QbitManage

namespace QbitManage

/-- C1: a `start_server` call that finds a stored record whose liveness
query reports the child alive returns success, keeps the stored record
unchanged, and performs no effect at all — in particular it neither
resolves a binary nor spawns a process, so a second live child can
never be created while the stored one is alive. -/
theorem start_server_idempotent_while_alive (fs : FsEnv) (plat : Platform)
    (o : SpawnEnv) (sp : ServerProcess) (h : o.tryWait sp = .running) :
    start_server fs plat o (some sp) = (some sp, .ok (), []) := by
  simp [start_server, h]

/-- A concrete supervisor child used by the witnesses. -/
def spSample : ServerProcess := ⟨4321⟩

/-- A spawn environment whose liveness query always reports alive. -/
def spawnEnvAlive : SpawnEnv :=
  { tryWait := fun _ => .running, spawn := fun _ => .error "unused" }

/-- Witness for C1 at a concrete record and oracle. -/
theorem start_server_idempotent_while_alive_witness :
    start_server fsEmpty Platform.linux spawnEnvAlive (some spSample) = (some spSample, .ok (), []) :=
  start_server_idempotent_while_alive fsEmpty Platform.linux spawnEnvAlive spSample rfl

/-- C2: whenever the OS spawn fails, `start_server` propagates the spawn
error to its caller and leaves the shared state empty, for every prior
state that reaches the spawn path (no record stored, or a stored record
not reported alive); the supervisor itself returns normally rather than
crashing. -/
theorem start_server_spawn_failure (fs : FsEnv) (plat : Platform) (o : SpawnEnv)
    (st : Option ServerProcess) (e : String)
    (hlive : ∀ sp, st = some sp → o.tryWait sp ≠ .running)
    (hspawn : o.spawn (chosen_spawn_path fs plat) = .error e) :
    (start_server fs plat o st).1 = none ∧ (start_server fs plat o st).2.1 = .error e := by
  match st with
  | none => simp [start_server, spawn_server_process, hspawn]
  | some sp =>
    have h := hlive sp rfl
    cases hw : o.tryWait sp with
    | running => exact absurd hw h
    | exited => simp [start_server, hw, spawn_server_process, hspawn]
    | checkErr => simp [start_server, hw, spawn_server_process, hspawn]

/-- A spawn environment whose spawn always fails. -/
def spawnEnvFail : SpawnEnv :=
  { tryWait := fun _ => .exited, spawn := fun _ => .error "os error 2" }

/-- Witness for C2 at the empty prior state and a failing spawn oracle. -/
theorem start_server_spawn_failure_witness :
    (start_server fsEmpty Platform.linux spawnEnvFail none).1 = none
    ∧ (start_server fsEmpty Platform.linux spawnEnvFail none).2.1 = .error "os error 2" :=
  start_server_spawn_failure fsEmpty Platform.linux spawnEnvFail none "os error 2"
    (fun _sp h => Option.noConfusion h) rfl

/-- C4: after `stop_server` the shared state is always empty — a
subsequent status query reports absent no matter how the child went
away — and a `stop_server` call that finds no stored record, including
the second of two immediate calls, performs no termination action and
returns normally. -/
theorem stop_server_clears_state (o o2 : StopEnv) (st : Option ServerProcess) :
    server_status (stop_server o st).1 = .absent
    ∧ stop_server o none = (none, [])
    ∧ stop_server o2 (stop_server o st).1 = (none, []) := by
  match st with
  | none => exact ⟨rfl, rfl, rfl⟩
  | some _sp => exact ⟨rfl, rfl, rfl⟩

/-- C6: the restart menu arm coincides with the spec-side composition
"stop, then the fixed cleanup delay, then start, then the readiness
wait and redirect"; and invoked with no child running its state
transition and its effects are exactly those of `start_server` from the
empty state (preceded only by the fixed delay and followed only by the
readiness tail) — no termination action depends on the prior state. -/
theorem restart_equiv_stop_delay_start (fs : FsEnv) (plat : Platform) (so : SpawnEnv)
    (te : StopEnv) (ro : ReadyEnv) (args : List String) (st : Option ServerProcess) :
    restart_server fs plat so te ro args st = restart_spec fs plat so te ro args st
    ∧ (restart_server fs plat so te ro args none).1 = (start_server fs plat so none).1
    ∧ (restart_server fs plat so te ro args none).2
        = .sleepMs PROCESS_WAIT_TIMEOUT_MS
          :: ((start_server fs plat so none).2.2
            ++ ready_redirect_actions fs.env ro args (SERVER_RESTART_TIMEOUT_SECS * 1000)
                 (start_server fs plat so none).2.1) := by
  refine ⟨rfl, rfl, ?_⟩
  simp [restart_server, stop_server]

end QbitManage

namespace QbitManage

/-- Bound on the polling loop: once the discrete clock passes the
timeout the loop has stopped, so from poll index `k` the loop performs
at most `n` further polls whenever `timeout ≤ (k + n) * POLL_INTERVAL_MS`. -/
theorem wait_for_process_exit_aux_le (w : Nat → Liveness) (t : Nat) :
    ∀ fuel k n, t ≤ k * POLL_INTERVAL_MS + n * POLL_INTERVAL_MS →
      wait_for_process_exit_aux w t fuel k ≤ k + n := by
  intro fuel
  induction fuel with
  | zero =>
    intro k n _
    simp [wait_for_process_exit_aux]
  | succ fuel ih =>
    intro k n h
    by_cases hg : k * POLL_INTERVAL_MS < t
    · have hn : 1 ≤ n := by
        simp [POLL_INTERVAL_MS] at h hg
        omega
      cases hw : w k with
      | running =>
        have hrec := ih (k + 1) (n - 1) (by simp [POLL_INTERVAL_MS] at h hg ⊢; omega)
        simp only [wait_for_process_exit_aux, if_pos hg, hw]
        omega
      | exited =>
        simp only [wait_for_process_exit_aux, if_pos hg, hw]
        omega
      | checkErr =>
        simp only [wait_for_process_exit_aux, if_pos hg, hw]
        omega
    · simp [wait_for_process_exit_aux, hg]

/-- C3: on Unix, `stop_server` with a stored record sends SIGTERM, sleeps
the fixed 50 ms grace window, sends the forceful kill exactly when the
liveness re-check still reports the child alive, re-checks liveness in
the bounded poll loop (at most 20 polls over its 200 ms budget), and
always ends with the unconditional kill and the blocking wait — so the
routine is safe even when the process had already exited.  Stated for
determinate liveness answers (`try_wait` not erroring at the
post-grace check). -/
theorem stop_server_unix_sequence (o : StopEnv) (sp : ServerProcess)
    (h : o.afterGrace ≠ .checkErr) :
    stop_server o (some sp)
      = (none,
         [.sigterm sp.pid, .sleepMs GRACEFUL_SHUTDOWN_WAIT_MS]
           ++ (if o.afterGrace = .running then [.kill sp.pid] else [])
           ++ [.pollLiveness sp.pid (wait_for_process_exit o.poll PROCESS_WAIT_TIMEOUT_MS),
               .kill sp.pid, .waitReap sp.pid])
    ∧ wait_for_process_exit o.poll PROCESS_WAIT_TIMEOUT_MS ≤ 20 := by
  constructor
  · cases hg : o.afterGrace with
    | exited => simp [stop_server, hg]
    | running => simp [stop_server, hg]
    | checkErr => exact absurd hg h
  · have hb := wait_for_process_exit_aux_le o.poll PROCESS_WAIT_TIMEOUT_MS
      (PROCESS_WAIT_TIMEOUT_MS + 1) 0 20 (by simp [POLL_INTERVAL_MS, PROCESS_WAIT_TIMEOUT_MS])
    simpa [wait_for_process_exit] using hb

/-- A stop-environment oracle whose child exits right after SIGTERM. -/
def stopEnvSample : StopEnv := { afterGrace := .exited, poll := fun _ => .exited }

/-- Witness for C3 at a concrete record and oracle. -/
theorem stop_server_unix_sequence_witness :
    stop_server stopEnvSample (some spSample)
      = (none,
         [.sigterm spSample.pid, .sleepMs GRACEFUL_SHUTDOWN_WAIT_MS]
           ++ (if stopEnvSample.afterGrace = .running then [.kill spSample.pid] else [])
           ++ [.pollLiveness spSample.pid (wait_for_process_exit stopEnvSample.poll PROCESS_WAIT_TIMEOUT_MS),
               .kill spSample.pid, .waitReap spSample.pid])
    ∧ wait_for_process_exit stopEnvSample.poll PROCESS_WAIT_TIMEOUT_MS ≤ 20 :=
  stop_server_unix_sequence stopEnvSample spSample (by decide)

end QbitManage

namespace QbitManage

/-- Characterisation of the readiness polling loop: from attempt `k`,
with enough fuel for the guard to stop the loop, it answers `true`
exactly when some attempt `j ≥ k` happens before the timeout
(its discrete start time `j * HTTP_POLL_INTERVAL_MS` below the budget)
and receives a response with status below 500. -/
theorem ready_poll_aux_true_iff (resp : Nat → Option Nat) (t : Nat) :
    ∀ fuel k, t ≤ k * HTTP_POLL_INTERVAL_MS + fuel * HTTP_POLL_INTERVAL_MS →
      (ready_poll_aux resp t fuel k = true ↔
        ∃ j, k ≤ j ∧ j * HTTP_POLL_INTERVAL_MS < t ∧ ∃ s, resp j = some s ∧ s < 500) := by
  intro fuel
  induction fuel with
  | zero =>
    intro k h
    constructor
    · intro hT
      simp [ready_poll_aux] at hT
    · rintro ⟨j, hkj, hjt, -⟩
      exfalso
      simp [HTTP_POLL_INTERVAL_MS] at h hjt
      omega
  | succ fuel ih =>
    intro k h
    by_cases hg : k * HTTP_POLL_INTERVAL_MS < t
    · cases hr : resp k with
      | some s =>
        by_cases hs : s < 500
        · constructor
          · intro _
            exact ⟨k, Nat.le_refl k, hg, s, hr, hs⟩
          · intro _
            simp [ready_poll_aux, hg, hr, hs]
        · have hstep : ready_poll_aux resp t (fuel + 1) k = ready_poll_aux resp t fuel (k + 1) := by
            simp [ready_poll_aux, hg, hr, hs]
          have hrec := ih (k + 1) (by simp [HTTP_POLL_INTERVAL_MS] at h ⊢; omega)
          rw [hstep, hrec]
          constructor
          · rintro ⟨j, hkj, hjt, hw⟩
            exact ⟨j, by omega, hjt, hw⟩
          · rintro ⟨j, hkj, hjt, s2, hr2, hs2⟩
            refine ⟨j, ?_, hjt, s2, hr2, hs2⟩
            rcases Nat.eq_or_lt_of_le hkj with he | hl
            · exfalso
              rw [← he, hr] at hr2
              injection hr2 with hss
              exact hs (hss ▸ hs2)
            · omega
      | none =>
        have hstep : ready_poll_aux resp t (fuel + 1) k = ready_poll_aux resp t fuel (k + 1) := by
          simp [ready_poll_aux, hg, hr]
        have hrec := ih (k + 1) (by simp [HTTP_POLL_INTERVAL_MS] at h ⊢; omega)
        rw [hstep, hrec]
        constructor
        · rintro ⟨j, hkj, hjt, hw⟩
          exact ⟨j, by omega, hjt, hw⟩
        · rintro ⟨j, hkj, hjt, s2, hr2, hs2⟩
          refine ⟨j, ?_, hjt, s2, hr2, hs2⟩
          rcases Nat.eq_or_lt_of_le hkj with he | hl
          · exfalso
            rw [← he, hr] at hr2
            exact Option.noConfusion hr2
          · omega
    · constructor
      · intro hT
        simp [ready_poll_aux, hg] at hT
      · rintro ⟨j, hkj, hjt, -⟩
        exfalso
        simp [HTTP_POLL_INTERVAL_MS] at hg hjt
        omega

/-- C5: with the HTTP client built, `wait_until_ready` answers `true`
exactly when some GET issued before the timeout elapses — attempts
being spaced one `HTTP_POLL_INTERVAL_MS` (250 ms) apart — receives a
response with status code below 500 (network errors, `resp k = none`,
merely keep polling); equivalently it answers `false` exactly when
every GET before the timeout either errors or answers 500 and above.
The loop stops at the first qualifying response, so the discrete answer
comes within one polling interval of the endpoint first qualifying. -/
theorem wait_until_ready_true_iff (resp : Nat → Option Nat) (timeoutMs : Nat) :
    (wait_until_ready true resp timeoutMs = true ↔
      ∃ k, k * HTTP_POLL_INTERVAL_MS < timeoutMs ∧ ∃ s, resp k = some s ∧ s < 500)
    ∧ (wait_until_ready true resp timeoutMs = false ↔
      ∀ k, k * HTTP_POLL_INTERVAL_MS < timeoutMs → ∀ s, resp k = some s → 500 ≤ s) := by
  have hmain : wait_until_ready true resp timeoutMs = true ↔
      ∃ k, k * HTTP_POLL_INTERVAL_MS < timeoutMs ∧ ∃ s, resp k = some s ∧ s < 500 := by
    have h := ready_poll_aux_true_iff resp timeoutMs (timeoutMs + 1) 0
      (by simp [HTTP_POLL_INTERVAL_MS]; omega)
    simpa [wait_until_ready] using h
  refine ⟨hmain, ?_⟩
  rw [← Bool.not_eq_true, hmain]
  constructor
  · intro hne k hk s hr
    by_contra hlt
    exact hne ⟨k, hk, s, hr, by omega⟩
  · rintro hall ⟨k, hk, s, hr, hs⟩
    exact absurd hs (by have := hall k hk s hr; omega)

/-- A response oracle that always answers HTTP 200. -/
def respSample : Nat → Option Nat := fun _ => some 200

/-- Witness for C5: a concrete evaluation through the theorem at an
always-ready endpoint. -/
theorem wait_until_ready_true_iff_witness :
    wait_until_ready true respSample 1000 = true :=
  (wait_until_ready_true_iff respSample 1000).1.mpr ⟨0, by decide, 200, rfl, by decide⟩

end QbitManage

namespace QbitManage

/-- The inner name loop is a first-match search over the joined
candidates of one directory. -/
theorem find_binary_in_names_eq (ex : FsPath → Bool) (p : FsPath) (names : List String) :
    find_binary_in_names ex p names = (names.map (fun n => p ++ [n])).find? ex := by
  induction names with
  | nil => simp [find_binary_in_names]
  | cons n ns ih =>
    cases hx : ex (p ++ [n]) with
    | true => simp [find_binary_in_names, hx]
    | false => simp [find_binary_in_names, hx, ih]

/-- The directory loop is a first-match search over all joined
candidates, directory-major. -/
theorem find_binary_in_paths_eq (ex : FsPath → Bool) (names : List String) :
    ∀ paths, find_binary_in_paths ex paths names
      = ((paths.flatMap (fun d => names.map (fun n => d ++ [n]))).find? ex) := by
  intro paths
  induction paths with
  | nil => simp [find_binary_in_paths]
  | cons p ps ih =>
    simp only [find_binary_in_paths, find_binary_in_names_eq, ih, List.flatMap_cons,
      List.find?_append]
    cases hc : (names.map (fun n => p ++ [n])).find? ex with
    | some c => simp [hc, Option.or]
    | none => simp [hc, Option.or]

/-- C7: binary resolution returns the first existing candidate of the
ordered list "environment override, then each candidate name under the
resource `bin` directory, the resource root, the executable's
directory, and that directory's parent"; and when nothing exists the
resolution is `none` and the spawn simply proceeds with the bare
fallback binary name (no custom error — a failure then surfaces as the
OS spawn error, as proved for C2). -/
theorem resolve_server_binary_first_match (fs : FsEnv) (plat : Platform) :
    resolve_server_binary fs plat = (resolve_candidates fs plat).find? fs.fileExists
    ∧ (resolve_server_binary fs plat = none →
        chosen_spawn_path fs plat = [get_fallback_binary_name plat]) := by
  constructor
  · cases he : fs.env "QBM_SERVER_PATH" with
    | none =>
      simp [resolve_server_binary, resolve_candidates, he, find_binary_in_paths_eq]
    | some p =>
      cases hx : fs.fileExists [p] with
      | true => simp [resolve_server_binary, resolve_candidates, he, hx]
      | false => simp [resolve_server_binary, resolve_candidates, he, hx, find_binary_in_paths_eq]
  · intro h
    simp [chosen_spawn_path, h]

/-- Witness for C7: with an empty filesystem resolution finds nothing and
the spawn path degrades to the bare binary name. -/
theorem resolve_server_binary_first_match_witness :
    chosen_spawn_path fsEmpty Platform.linux = ["qbit-manage"] :=
  (resolve_server_binary_first_match fsEmpty Platform.linux).2 (by decide)

end QbitManage

namespace QbitManage

/-- C9: for host, port and base path alike, a value found by the
command-line scan decides the result; only when the scan decides
nothing is the corresponding environment variable consulted —
`QBT_PORT` (parsed as `u16`), `QBT_HOST` (trimmed, non-empty) and
`QBT_BASE_URL` (trimmed, slash-stripped, non-empty) each beating the
default; and with both absent the defaults apply — host `127.0.0.1`,
port `DEFAULT_PORT` (8080), no base path.  An unparsable `--port`
value never fails the call: the scan simply continues past it, so the
environment/default chain still applies. -/
theorem config_cli_env_default_precedence :
    (∀ (env : Env) (args : List String) (p : Nat),
       parse_port_args_scan args = some p → parse_port_from_args env args = p)
    ∧ (∀ (env : Env) (args : List String) (v : String) (p : Nat),
       parse_port_args_scan args = none → env "QBT_PORT" = some v →
       parseU16 (strTrim v) = some p → parse_port_from_args env args = p)
    ∧ (∀ (env : Env) (args : List String),
       parse_port_args_scan args = none →
       (env "QBT_PORT").bind (fun v => parseU16 (strTrim v)) = none →
       parse_port_from_args env args = DEFAULT_PORT)
    ∧ (∀ (env : Env) (args : List String) (h : String),
       parse_host_args_scan args = some h → parse_host_from_args env args = h)
    ∧ (∀ (env : Env) (args : List String) (v : String),
       parse_host_args_scan args = none → env "QBT_HOST" = some v →
       strIsEmpty (strTrim v) = false → parse_host_from_args env args = strTrim v)
    ∧ (∀ (env : Env) (args : List String),
       parse_host_args_scan args = none →
       (match env "QBT_HOST" with
        | some v => strIsEmpty (strTrim v) = true
        | none => True) →
       parse_host_from_args env args = "127.0.0.1")
    ∧ (∀ (env : Env) (args : List String) (r : Option String),
       parse_base_url_args_scan args = some r → parse_base_url_from_args env args = r)
    ∧ (∀ (env : Env) (args : List String) (w : String),
       parse_base_url_args_scan args = none → env "QBT_BASE_URL" = some w →
       strIsEmpty (strDropLeading '/' (strTrim w)) = false →
       parse_base_url_from_args env args = some (strDropLeading '/' (strTrim w)))
    ∧ (∀ (env : Env) (args : List String),
       parse_base_url_args_scan args = none → env "QBT_BASE_URL" = none →
       parse_base_url_from_args env args = none)
    ∧ (∀ (env : Env) (v : String) (rest : List String),
       parseU16 v = none →
       parse_port_from_args env ("--port" :: v :: rest) = parse_port_from_args env (v :: rest)) := by
  refine ⟨?_, ?_, ?_, ?_, ?_, ?_, ?_, ?_, ?_, ?_⟩
  · intro env args p h
    simp [parse_port_from_args, h]
  · intro env args v p hscan henv hp
    simp [parse_port_from_args, hscan, henv, hp]
  · intro env args hscan hb
    cases henv : env "QBT_PORT" with
    | none => simp [parse_port_from_args, hscan, henv]
    | some v =>
      rw [henv] at hb
      simp at hb
      simp [parse_port_from_args, hscan, henv, hb]
  · intro env args h hscan
    simp [parse_host_from_args, hscan]
  · intro env args v hscan henv hne
    simp [parse_host_from_args, hscan, henv, hne]
  · intro env args hscan henv
    cases he : env "QBT_HOST" with
    | none => simp [parse_host_from_args, hscan, he]
    | some v =>
      rw [he] at henv
      simp [parse_host_from_args, hscan, he, henv]
  · intro env args r h
    simp [parse_base_url_from_args, h]
  · intro env args w hscan henv hne
    simp [parse_base_url_from_args, hscan, henv, hne]
  · intro env args hscan henv
    simp [parse_base_url_from_args, hscan, henv]
  · intro env v rest hv
    have hscan : parse_port_args_scan ("--port" :: v :: rest) = parse_port_args_scan (v :: rest) := by
      simp [parse_port_args_scan, hv]
    simp [parse_port_from_args, hscan]

/-- An environment with only `QBT_PORT` set. -/
def envQ : Env := fun k => if k = "QBT_PORT" then some " 9100 " else none

/-- Witness for C9: a command-line port beats a set `QBT_PORT`. -/
theorem config_cli_env_default_precedence_witness :
    parse_port_from_args envQ ["--port", "7005"] = 7005 :=
  config_cli_env_default_precedence.1 envQ ["--port", "7005"] 7005 (by decide)

end QbitManage

namespace QbitManage

/-- Arguments that cannot trigger the base-url branch of the scan: none
of the three flag spellings and neither `=`-form. -/
def is_base_url_flag_token (a : String) : Bool :=
  a == "--base-url" || a == "--base_url" || a == "-b" ||
    (chop "--base-url=" a).isSome || (chop "--base_url=" a).isSome

/-- A non-flag argument is skipped by the base-url scan. -/
theorem parse_base_url_args_scan_skip (a : String) (rest : List String)
    (h : is_base_url_flag_token a = false) :
    parse_base_url_args_scan (a :: rest) = parse_base_url_args_scan rest := by
  have h1 : a ≠ "--base-url" := by
    intro hh
    subst hh
    simp [is_base_url_flag_token] at h
  have h2 : a ≠ "--base_url" := by
    intro hh
    subst hh
    simp [is_base_url_flag_token] at h
  have h3 : a ≠ "-b" := by
    intro hh
    subst hh
    simp [is_base_url_flag_token] at h
  have h4 : chop "--base-url=" a = none := by
    cases hc : chop "--base-url=" a with
    | none => rfl
    | some r => simp [is_base_url_flag_token, hc] at h
  have h5 : chop "--base_url=" a = none := by
    cases hc : chop "--base_url=" a with
    | none => rfl
    | some r => simp [is_base_url_flag_token, hc] at h
  simp [parse_base_url_args_scan, h1, h2, h3, h4, h5]

/-- With no base-url flag anywhere, the scan decides nothing. -/
theorem parse_base_url_args_scan_all_skip :
    ∀ args : List String, (∀ a ∈ args, is_base_url_flag_token a = false) →
      parse_base_url_args_scan args = none := by
  intro args
  induction args with
  | nil =>
    intro _
    rfl
  | cons a rest ih =>
    intro h
    rw [parse_base_url_args_scan_skip a rest (h a (by simp))]
    exact ih (fun x hx => h x (by simp [hx]))

/-- The scan ignores a flag-free block of arguments. -/
theorem parse_base_url_args_scan_append (pre rest : List String)
    (h : ∀ a ∈ pre, is_base_url_flag_token a = false) :
    parse_base_url_args_scan (pre ++ rest) = parse_base_url_args_scan rest := by
  induction pre with
  | nil => rfl
  | cons a ps ih =>
    rw [List.cons_append, parse_base_url_args_scan_skip a (ps ++ rest) (h a (by simp))]
    exact ih (fun x hx => h x (by simp [hx]))

/-- C10: the first base-url flag (`--base-url`, `--base_url` or `-b`)
whose value trims and slash-strips to the empty string makes base-path
parsing return no base path immediately, whatever `QBT_BASE_URL` holds
(the environment fallback is never consulted); whereas with no base-url
flag on the command line at all, a non-empty `QBT_BASE_URL` provides
the base path. -/
theorem empty_base_flag_suppresses_env :
    (∀ (env : Env) (flag v : String) (pre post : List String),
       (flag = "--base-url" ∨ flag = "--base_url" ∨ flag = "-b") →
       (∀ a ∈ pre, is_base_url_flag_token a = false) →
       strIsEmpty (strDropLeading '/' (strTrim v)) = true →
       parse_base_url_from_args env (pre ++ flag :: v :: post) = none)
    ∧ (∀ (env : Env) (args : List String) (w : String),
       (∀ a ∈ args, is_base_url_flag_token a = false) →
       env "QBT_BASE_URL" = some w →
       strIsEmpty (strDropLeading '/' (strTrim w)) = false →
       parse_base_url_from_args env args = some (strDropLeading '/' (strTrim w))) := by
  constructor
  · intro env flag v pre post hflag hpre hempty
    have hscan : parse_base_url_args_scan (pre ++ flag :: v :: post) = some none := by
      rw [parse_base_url_args_scan_append pre _ hpre]
      rcases hflag with hf | hf | hf <;> subst hf <;> simp [parse_base_url_args_scan, hempty]
    simp [parse_base_url_from_args, hscan]
  · intro env args w hargs henv hne
    have hscan := parse_base_url_args_scan_all_skip args hargs
    simp [parse_base_url_from_args, hscan, henv, hne]

/-- An environment with only `QBT_BASE_URL` set. -/
def envB : Env := fun k => if k = "QBT_BASE_URL" then some "envbase" else none

/-- Witness for C10: an explicitly empty `--base-url` value yields no
base path even though `QBT_BASE_URL` is set. -/
theorem empty_base_flag_suppresses_env_witness :
    parse_base_url_from_args envB ["--base-url", " /// "] = none :=
  empty_base_flag_suppresses_env.1 envB "--base-url" " /// " [] [] (Or.inl rfl)
    (by simp) (by decide)

end QbitManage
